import Mathlib

/-!
A shallow embedding of the tumour-growth charting application (`app.py`) and
proofs about its data pipeline.

The application loads a wide spreadsheet (first column = time in days, every
other column = one mouse), melts it to long form `(time, mouse, volume)`,
drops rows with a missing volume, and renders, per selected mouse, either the
raw sorted measurements or a LOWESS-smoothed curve, with two fixed shaded
"chemo window" bands.

Modelling decisions:
* Times and volumes are rationals (`ℚ`).
* `pandas.DataFrame.sort_values(time_col)` guarantees only a permutation of
  the rows sorted by the time key: the call in the source uses the default
  `kind='quicksort'`, which pandas documents as not stable, so the order of
  equal-time rows is unspecified.  That documented contract is the predicate
  `IsSortValuesOutput`; the executable model `sort_values` (an insertion
  sort) is one output admitted by it, and no theorem relies on the model's
  incidental tie order — tie-order properties are stated against the
  contract only.
* `statsmodels.nonparametric.smoothers_lowess.lowess` is an external library;
  it is modelled as an abstract parameter of type `Smoother` taking the span
  fraction and the sorted `(time, volume)` pairs and either failing
  (a Python exception) or returning fitted `(x, y)` pairs.  The documented
  output shape of `lowess` (first column = the sorted `exog` values, one row
  per observation, duplicates included) is captured by the predicate
  `LowessShape` and assumed only where a property needs it.
* A plotly trace is a `Trace` record (x column, y column, mode string, name,
  dash style); a figure is its list of traces plus the list of vrect bands.
  Static layout options (height, axis titles, hover mode) carry no logic and
  are omitted.
* The Dash callback may receive the selection either as a single string or as
  a list (`Selection`); Python truthiness of `not selected_mice` is modelled
  by `falsy`.
* A Python exception escaping the callback is the `Except.error` case; the
  error payload is `Unit` since only control flow matters.
-/

namespace TumourApp

/-- One long-form row of the melted table: `(time, mouse, volume)`. -/
structure Measurement where
  time : ℚ
  mouse : String
  volume : ℚ
deriving DecidableEq

/-- The wide input table (`df_wide`): the designated time column, the names of
the remaining (mouse) columns, and one cell list per row, positionally aligned
with `mice`; `none` is a missing value (NaN). -/
structure WideTable where
  mice : List String
  rows : List (ℚ × List (Option ℚ))

/-- Embeds `df_wide.melt(id_vars=time_col, value_vars=mouse_cols, ...)`:
pandas stacks the value columns one after another, so the output lists, for
each mouse column in declaration order, every row's `(time, mouse, cell)`
triple, missing cells still present as `none`. -/
def melt (w : WideTable) : List (ℚ × String × Option ℚ) :=
  w.mice.enum.flatMap (fun jc => w.rows.map (fun r => (r.1, jc.2, (r.2.get? jc.1).join)))

/-- Embeds `df = df_wide.melt(...)` followed by `df.dropna(subset=["Volume"])`:
the long-form measurement table, rows with missing volume removed. -/
def df (w : WideTable) : List Measurement :=
  (melt w).filterMap (fun e => e.2.2.map (fun v => ⟨e.1, e.2.1, v⟩))

/-- The hard-coded set `DASHED_MICE` of mice drawn with dashed lines. -/
def DASHED_MICE : List String := ["TP1-PT", "TP2-PT", "TP3-V", "TP5-V"]

/-- The hard-coded chemo windows `[(37, 57), (65, 85)]` added as vrects. -/
def chemo_windows : List (ℚ × ℚ) := [(37, 57), (65, 85)]

/-- Comparison of measurements by their time key, the sort key of
`sort_values(time_col)`. -/
def timeLE (a b : Measurement) : Prop := a.time ≤ b.time

instance : DecidableRel timeLE := fun a b => inferInstanceAs (Decidable (a.time ≤ b.time))

instance : IsTotal Measurement timeLE := ⟨fun a b => le_total a.time b.time⟩

instance : IsTrans Measurement timeLE := ⟨fun _ _ _ h1 h2 => le_trans h1 h2⟩

/-- Executable model of `dff.sort_values(time_col)`: sorts the measurement
rows by time.  The concrete algorithm (an insertion sort) is one admissible
output of the pandas call; the program itself, using the default
`kind='quicksort'`, promises only `IsSortValuesOutput` below, so no theorem
reads any tie-order behaviour off this model. -/
def sort_values (l : List Measurement) : List Measurement :=
  List.insertionSort timeLE l

/-- The contract pandas documents for `sort_values(time_col)` with the
default `kind='quicksort'`: the result is some permutation of the input rows
that is sorted by the time key.  Only `kind='mergesort'` / `'stable'` are
documented as stable and the source passes no `kind`, so which permutation
appears at equal times is unspecified: every list satisfying this predicate
is an admissible result of the sort at line 90 of the source. -/
def IsSortValuesOutput (l out : List Measurement) : Prop :=
  out.Perm l ∧ out.Pairwise timeLE

instance (l out : List Measurement) : Decidable (IsSortValuesOutput l out) :=
  inferInstanceAs (Decidable (_ ∧ _))

/-- The interface of the external `lowess` routine: span fraction, then the
sorted `(time, volume)` input pairs; a numerical failure is `Except.error`. -/
def Smoother : Type := ℚ → List (ℚ × ℚ) → Except Unit (List (ℚ × ℚ))

/-- The documented output shape of `statsmodels` `lowess` (with the default
`return_sorted=True`): when it succeeds, the first output column is exactly
the input `exog` column in sorted order — one row per observation, duplicate
x values included.  Our input pairs are already sorted by time, so the output
x column equals the input x column in order. -/
def LowessShape (lowess : Smoother) : Prop :=
  ∀ frac pts out, lowess frac pts = .ok out → out.map Prod.fst = pts.map Prod.fst

/-- One plotly scatter trace as built by the callback. -/
structure Trace where
  x : List ℚ
  y : List ℚ
  mode : String
  name : String
  dash : String
deriving DecidableEq

/-- The figure handed back by the callback: its traces and its vrect bands. -/
structure Figure where
  traces : List Trace
  bands : List (ℚ × ℚ)
deriving DecidableEq

deriving instance DecidableEq for Except

/-- The callback's `selected_mice` argument: Dash delivers a list for a multi
dropdown, but the code defends against a bare string. -/
inductive Selection where
  | ofString : String → Selection
  | ofList : List String → Selection

/-- Python truthiness test `not selected_mice`: true exactly for the empty
string and the empty list. -/
def falsy : Selection → Bool
  | .ofString s => decide (s = "")
  | .ofList l => l.isEmpty

/-- Embeds the `isinstance(selected_mice, str)` normalisation: a bare string
becomes a one-element list. -/
def asList : Selection → List String
  | .ofString s => [s]
  | .ofList l => l

/-- The body of the per-mouse loop in `update_tumour_graph`: filter to the
mouse, sort by time, pick the dash style, then either call `lowess` with
`frac=0.35` (only when `curve_type == "smooth"` and more than 2 points) or
emit the raw `lines+markers` trace. -/
def mouse_trace (lowess : Smoother) (data : List Measurement) (curve_type : String)
    (mouse : String) : Except Unit Trace :=
  let dff := sort_values (data.filter (fun r => decide (r.mouse = mouse)))
  let dash_style := if mouse ∈ DASHED_MICE then "dash" else "solid"
  if curve_type = "smooth" ∧ dff.length > 2 then
    match lowess (35 / 100) (dff.map (fun r => (r.time, r.volume))) with
    | .error e => .error e
    | .ok sm =>
      .ok ⟨sm.map Prod.fst, sm.map Prod.snd, "lines", mouse ++ " (smoothed)", dash_style⟩
  else
    .ok ⟨dff.map (·.time), dff.map (·.volume), "lines+markers", mouse, dash_style⟩

/-- The `for mouse in selected_mice` loop: traces are accumulated in order and
a Python exception from any iteration aborts the whole callback. -/
def add_traces (lowess : Smoother) (data : List Measurement) (curve_type : String) :
    List String → Except Unit (List Trace)
  | [] => .ok []
  | m :: ms =>
    match mouse_trace lowess data curve_type m with
    | .error e => .error e
    | .ok t =>
      match add_traces lowess data curve_type ms with
      | .error e => .error e
      | .ok ts => .ok (t :: ts)

/-- Embeds the callback `update_tumour_graph(selected_mice, curve_type)`: an
untruthy selection short-circuits to the empty `go.Figure()` (no traces, no
bands); otherwise one trace per selected mouse is added, then the two chemo
windows are attached as bands. -/
def update_tumour_graph (lowess : Smoother) (data : List Measurement)
    (selected_mice : Selection) (curve_type : String) : Except Unit Figure :=
  if falsy selected_mice then .ok ⟨[], []⟩
  else
    match add_traces lowess data curve_type (asList selected_mice) with
    | .error e => .error e
    | .ok ts => .ok ⟨ts, chemo_windows⟩

/-- A smoother standing in for a successful `lowess` call: it returns the
input pairs unchanged, which has the documented `lowess` output shape. -/
def lowess_id : Smoother := fun _ pts => .ok pts

/-- A smoother standing in for a `lowess` call that raises on one particular
subject: it fails exactly on inputs of four points. -/
def lowess_fail4 : Smoother := fun _ pts => if pts.length = 4 then .error () else .ok pts

/-- A one-measurement table: mouse `A` at day 0. -/
def df0 : List Measurement := [⟨0, "A", 100⟩]

/-- A table whose mouse `A` has three measurements with a duplicated time. -/
def df1 : List Measurement := [⟨1, "A", 10⟩, ⟨1, "A", 20⟩, ⟨2, "A", 30⟩]

/-- A table with mouse `A` at four distinct times and mouse `B` at one. -/
def df2 : List Measurement :=
  [⟨0, "A", 1⟩, ⟨1, "A", 2⟩, ⟨2, "A", 3⟩, ⟨3, "A", 4⟩, ⟨0, "B", 5⟩]

/-- A table with mouse `A` at three distinct times. -/
def df3 : List Measurement := [⟨0, "A", 1⟩, ⟨1, "A", 2⟩, ⟨2, "A", 3⟩]

/-- A table whose mouse `A` has two measurements at the same time. -/
def df4 : List Measurement := [⟨1, "A", 10⟩, ⟨1, "A", 20⟩]

/-! ### Helper lemmas -/

theorem sort_values_perm (l : List Measurement) : (sort_values l).Perm l :=
  List.perm_insertionSort timeLE l

theorem sort_values_length (l : List Measurement) : (sort_values l).length = l.length :=
  (sort_values_perm l).length_eq

theorem sort_values_sorted (l : List Measurement) : (sort_values l).Pairwise timeLE :=
  List.sorted_insertionSort timeLE l

theorem mouse_trace_else (lowess : Smoother) (data : List Measurement) (ct m : String)
    (h : ¬(ct = "smooth"
        ∧ (sort_values (data.filter (fun r => decide (r.mouse = m)))).length > 2)) :
    mouse_trace lowess data ct m
      = .ok ⟨(sort_values (data.filter (fun r => decide (r.mouse = m)))).map (·.time),
             (sort_values (data.filter (fun r => decide (r.mouse = m)))).map (·.volume),
             "lines+markers", m,
             if m ∈ DASHED_MICE then "dash" else "solid"⟩ := by
  simp only [mouse_trace]
  rw [if_neg h]

theorem mouse_trace_mode_eq (lowess lowess' : Smoother) (data : List Measurement)
    (ct : String) (h : ct ≠ "smooth") (m : String) :
    mouse_trace lowess data ct m = mouse_trace lowess' data "raw" m := by
  rw [mouse_trace_else lowess data ct m (fun hc => h hc.1),
    mouse_trace_else lowess' data "raw" m (fun hc => absurd hc.1 (by decide))]

theorem add_traces_mode_eq (lowess lowess' : Smoother) (data : List Measurement)
    (ct : String) (h : ct ≠ "smooth") :
    ∀ ms, add_traces lowess data ct ms = add_traces lowess' data "raw" ms := by
  intro ms
  induction ms with
  | nil => rfl
  | cons m tl ih =>
    simp only [add_traces, mouse_trace_mode_eq lowess lowess' data ct h m, ih]

theorem add_traces_raw_ok (lowess : Smoother) (data : List Measurement) :
    ∀ ms, ∃ ts, add_traces lowess data "raw" ms = .ok ts := by
  intro ms
  induction ms with
  | nil => exact ⟨[], rfl⟩
  | cons m tl ih =>
    obtain ⟨ts, hts⟩ := ih
    refine ⟨⟨(sort_values (data.filter (fun r => decide (r.mouse = m)))).map (·.time),
        (sort_values (data.filter (fun r => decide (r.mouse = m)))).map (·.volume),
        "lines+markers", m, if m ∈ DASHED_MICE then "dash" else "solid"⟩ :: ts, ?_⟩
    simp only [add_traces]
    rw [mouse_trace_else lowess data "raw" m (fun hc => absurd hc.1 (by decide)), hts]

theorem update_raw_ok (lowess : Smoother) (data : List Measurement) (sel : Selection) :
    ∃ fig, update_tumour_graph lowess data sel "raw" = .ok fig := by
  cases hf : falsy sel with
  | true => exact ⟨⟨[], []⟩, by simp [update_tumour_graph, hf]⟩
  | false =>
    obtain ⟨ts, hts⟩ := add_traces_raw_ok lowess data (asList sel)
    exact ⟨⟨ts, chemo_windows⟩, by simp [update_tumour_graph, hf, hts]⟩

theorem add_traces_error_of_mem (lowess : Smoother) (data : List Measurement)
    (ct m : String) :
    ∀ ms, m ∈ ms → mouse_trace lowess data ct m = .error () →
      add_traces lowess data ct ms = .error () := by
  intro ms
  induction ms with
  | nil => intro h; cases h
  | cons a tl ih =>
    intro hmem herr
    cases hcase : mouse_trace lowess data ct a with
    | error e => simp [add_traces, hcase]
    | ok tr =>
      rcases List.mem_cons.mp hmem with heq | htl
      · subst heq
        rw [herr] at hcase
        cases hcase
      · simp [add_traces, hcase, ih htl herr]

theorem filterMap_flatMap_eq {α β γ : Type} (l : List α) (f : α → List β) (g : β → Option γ) :
    (l.flatMap f).filterMap g = l.flatMap (fun a => (f a).filterMap g) := by
  induction l with
  | nil => rfl
  | cons a tl ih => simp only [List.flatMap_cons, List.filterMap_append, ih]

theorem length_filterMap_eq_countP {α β : Type} (f : α → Option β) (l : List α) :
    (l.filterMap f).length = l.countP (fun a => (f a).isSome) := by
  induction l with
  | nil => rfl
  | cons a tl ih =>
    cases h : f a <;> simp [List.filterMap_cons, h, List.countP_cons, ih]

/-! ### Claim theorems -/

/-- C4: for the empty selection (zero subjects requested) the callback
returns the empty `go.Figure()`: a Chart Description with zero series and
zero annotation bands, short-circuiting before any band is attached. -/
theorem empty_selection_empty_figure (lowess : Smoother) (data : List Measurement)
    (curve_type : String) :
    update_tumour_graph lowess data (.ofList []) curve_type
      = .ok { traces := [], bands := [] } := rfl

/-- C5: whenever a non-empty selection produces a figure (in either curve
mode), that figure's annotation bands are exactly `[(37, 57), (65, 85)]`,
independent of the selection and of the curve mode. -/
theorem bands_constant_for_nonempty_selection (lowess : Smoother) (data : List Measurement)
    (sel : Selection) (curve_type : String) (fig : Figure)
    (hsel : falsy sel = false)
    (hfig : update_tumour_graph lowess data sel curve_type = .ok fig) :
    fig.bands = [(37, 57), (65, 85)] := by
  have hff : ¬ (falsy sel = true) := by rw [hsel]; exact Bool.false_ne_true
  unfold update_tumour_graph at hfig
  rw [if_neg hff] at hfig
  cases hadd : add_traces lowess data curve_type (asList sel) with
  | error e => rw [hadd] at hfig; simp at hfig
  | ok ts =>
    rw [hadd] at hfig
    injection hfig with hfig
    rw [← hfig]
    rfl

/-- Witness for C5: the one-mouse selection `["A"]` over `df0` in raw mode
produces a figure whose bands are `[(37, 57), (65, 85)]`. -/
theorem bands_constant_for_nonempty_selection_witness :
    ({ traces := [⟨[0], [100], "lines+markers", "A", "solid"⟩],
       bands := chemo_windows } : Figure).bands = [(37, 57), (65, 85)] :=
  bands_constant_for_nonempty_selection lowess_id df0 (.ofList ["A"]) "raw"
    ⟨[⟨[0], [100], "lines+markers", "A", "solid"⟩], chemo_windows⟩ (by decide) (by decide)

/-- C6: for a mouse with at most 2 measurements, the smoothed-mode trace
equals the raw-mode trace exactly (for any smoothers): the points are the
sorted `(time, volume)` pairs and the label is the bare mouse name. -/
theorem small_count_smooth_equals_raw (lowess lowess' : Smoother) (data : List Measurement)
    (mouse : String)
    (h : (data.filter (fun r => decide (r.mouse = mouse))).length ≤ 2) :
    mouse_trace lowess data "smooth" mouse = mouse_trace lowess' data "raw" mouse
    ∧ mouse_trace lowess data "smooth" mouse
      = .ok ⟨(sort_values (data.filter (fun r => decide (r.mouse = mouse)))).map (·.time),
             (sort_values (data.filter (fun r => decide (r.mouse = mouse)))).map (·.volume),
             "lines+markers", mouse,
             if mouse ∈ DASHED_MICE then "dash" else "solid"⟩ := by
  have hlen : ¬ ((sort_values (data.filter (fun r => decide (r.mouse = mouse)))).length > 2) := by
    rw [sort_values_length]; omega
  have hs := mouse_trace_else lowess data "smooth" mouse (fun hc => hlen hc.2)
  have hr := mouse_trace_else lowess' data "raw" mouse (fun hc => absurd hc.1 (by decide))
  exact ⟨hs.trans hr.symm, hs⟩

/-- Witness for C6: mouse `A` of `df0` has one measurement, and its smooth
trace (under any smoother) coincides with the raw trace. -/
theorem small_count_smooth_equals_raw_witness :
    mouse_trace lowess_id df0 "smooth" "A" = mouse_trace lowess_fail4 df0 "raw" "A"
    ∧ mouse_trace lowess_id df0 "smooth" "A"
      = .ok ⟨(sort_values (df0.filter (fun r => decide (r.mouse = "A")))).map (·.time),
             (sort_values (df0.filter (fun r => decide (r.mouse = "A")))).map (·.volume),
             "lines+markers", "A",
             if "A" ∈ DASHED_MICE then "dash" else "solid"⟩ :=
  small_count_smooth_equals_raw lowess_id lowess_fail4 df0 "A" (by decide)

/-- C7 (counterexample): the sort at line 90 of the source uses pandas'
default `kind='quicksort'`, which is documented as not stable, so its
contract `IsSortValuesOutput` admits — for the two equal-time rows of mouse
`A` in `df4` — an output in which the time-1 measurements appear in reversed
order: the filtered rows at time 1 then differ from their original order,
refuting the claimed tie-order preservation. -/
theorem sort_ties_not_preserved_cex :
    IsSortValuesOutput (df4.filter (fun r => decide (r.mouse = "A")))
      [⟨1, "A", 20⟩, ⟨1, "A", 10⟩]
    ∧ ([(⟨1, "A", 20⟩ : Measurement), ⟨1, "A", 10⟩].filter (fun r => decide (r.time = 1))
      ≠ (df4.filter (fun r => decide (r.mouse = "A"))).filter
          (fun r => decide (r.time = 1))) := by decide

/-- C7 (amended): for every subject, every output admitted by the sort's
documented contract is non-decreasing in time and is a permutation of the
subject's rows — this much every Series inherits — but tie-order
preservation is not guaranteed, the default sort kind being non-stable; the
executable model `sort_values` is one admitted output. -/
theorem series_sorted_under_sort_contract (data : List Measurement) (mouse : String)
    (out : List Measurement)
    (hout : IsSortValuesOutput (data.filter (fun r => decide (r.mouse = mouse))) out) :
    (out.map (·.time)).Pairwise (· ≤ ·)
    ∧ out.Perm (data.filter (fun r => decide (r.mouse = mouse)))
    ∧ IsSortValuesOutput (data.filter (fun r => decide (r.mouse = mouse)))
        (sort_values (data.filter (fun r => decide (r.mouse = mouse)))) :=
  ⟨List.pairwise_map.mpr hout.2, hout.1, sort_values_perm _, sort_values_sorted _⟩

/-- Witness for C7 (amended): a concrete admitted output for mouse `A` of
`df1` (which has an equal-time pair) is non-decreasing in time and a
permutation of the rows. -/
theorem series_sorted_under_sort_contract_witness :
    (([⟨1, "A", 10⟩, ⟨1, "A", 20⟩, ⟨2, "A", 30⟩] : List Measurement).map
        (·.time)).Pairwise (· ≤ ·)
    ∧ ([(⟨1, "A", 10⟩ : Measurement), ⟨1, "A", 20⟩, ⟨2, "A", 30⟩] : List Measurement).Perm
        (df1.filter (fun r => decide (r.mouse = "A")))
    ∧ IsSortValuesOutput (df1.filter (fun r => decide (r.mouse = "A")))
        (sort_values (df1.filter (fun r => decide (r.mouse = "A")))) :=
  series_sorted_under_sort_contract df1 "A"
    [⟨1, "A", 10⟩, ⟨1, "A", 20⟩, ⟨2, "A", 30⟩] (by decide)

/-- C8: the reshaping emits exactly one Measurement per (row, mouse) pair
whose cell is non-missing — the long table is precisely the per-column
`filterMap` of the rows — and zero Measurements for missing cells, with the
length given by counting the non-missing cells; values are taken verbatim
(no defaulting). -/
theorem melt_dropna_characterisation (w : WideTable) :
    df w = w.mice.enum.flatMap (fun jc =>
        w.rows.filterMap (fun r => ((r.2.get? jc.1).join).map (fun v => ⟨r.1, jc.2, v⟩)))
    ∧ (df w).length
      = (w.mice.enum.map
          (fun jc => w.rows.countP (fun r => ((r.2.get? jc.1).join).isSome))).sum := by
  constructor
  · unfold df melt
    rw [filterMap_flatMap_eq]
    apply congrArg
    funext jc
    rw [List.filterMap_map]
    rfl
  · unfold df melt
    rw [filterMap_flatMap_eq, List.length_flatMap]
    apply congrArg
    apply List.map_congr_left
    intro jc _
    simp only [Function.comp, List.filterMap_map, length_filterMap_eq_countP]
    apply List.countP_congr
    intro r _
    cases hr : r.2.get? jc.1 with
    | none => rfl
    | some o => cases o <;> rfl

/-- C9: any curve-type string other than `"smooth"` (including unrecognized
values) behaves exactly like raw mode, for any smoother, and is never
rejected: the callback still returns a figure. -/
theorem non_smooth_mode_is_raw (lowess lowess' : Smoother) (data : List Measurement)
    (sel : Selection) (curve_type : String) (h : curve_type ≠ "smooth") :
    update_tumour_graph lowess data sel curve_type
      = update_tumour_graph lowess' data sel "raw"
    ∧ ∃ fig, update_tumour_graph lowess data sel curve_type = .ok fig := by
  have heq : update_tumour_graph lowess data sel curve_type
      = update_tumour_graph lowess' data sel "raw" := by
    simp only [update_tumour_graph, add_traces_mode_eq lowess lowess' data curve_type h]
  obtain ⟨fig, hfig⟩ := update_raw_ok lowess' data sel
  exact ⟨heq, fig, heq.trans hfig⟩

/-- Witness for C9: the unrecognized curve type `"bogus"` renders `df0`
exactly like raw mode. -/
theorem non_smooth_mode_is_raw_witness :
    update_tumour_graph lowess_id df0 (.ofList ["A"]) "bogus"
      = update_tumour_graph lowess_fail4 df0 (.ofList ["A"]) "raw" :=
  (non_smooth_mode_is_raw lowess_id lowess_fail4 df0 (.ofList ["A"]) "bogus" (by decide)).1

/-- C10 (counterexample): for the empty-string selection the claim fails:
Python truthiness short-circuits `""` to the empty figure, while `[""]` is
truthy and yields a figure with one empty trace and the two bands. -/
theorem string_selection_empty_string_cex :
    update_tumour_graph lowess_id df0 (.ofString "") "raw"
      ≠ update_tumour_graph lowess_id df0 (.ofList [""]) "raw" := by decide

/-- C10 (amended): for every non-empty subject-identifier string `s`, a bare
string selection `s` produces the same Chart Description as the one-element
list `[s]`, in every curve mode. -/
theorem string_selection_equals_singleton (lowess : Smoother) (data : List Measurement)
    (curve_type s : String) (h : s ≠ "") :
    update_tumour_graph lowess data (.ofString s) curve_type
      = update_tumour_graph lowess data (.ofList [s]) curve_type := by
  simp [update_tumour_graph, falsy, asList, h]

/-- Witness for C10: the bare-string selection `"A"` renders like `["A"]`. -/
theorem string_selection_equals_singleton_witness :
    update_tumour_graph lowess_id df0 (.ofString "A") "raw"
      = update_tumour_graph lowess_id df0 (.ofList ["A"]) "raw" :=
  string_selection_equals_singleton lowess_id df0 "raw" "A" (by decide)

/-- C1 (counterexample): selecting only the unknown mouse `"B"` over `df0`
(whose only mouse is `"A"`) is NOT rejected: the callback returns a Chart
Description holding an empty trace for `"B"` plus the two bands, so no
`InvalidSelection` error exists in the code. -/
theorem unknown_selection_accepted_cex :
    (∀ r ∈ df0, r.mouse ≠ "B")
    ∧ update_tumour_graph lowess_id df0 (.ofList ["B"]) "raw"
      = .ok ⟨[⟨[], [], "lines+markers", "B", "solid"⟩], chemo_windows⟩ :=
  ⟨by decide, by decide⟩

/-- C1 (amended): a selection mentioning a mouse absent from the data is not
validated or rejected: the unknown mouse simply contributes a trace with zero
points (in any curve mode), and in raw mode the callback always succeeds and
produces a Chart Description. -/
theorem unknown_mouse_not_rejected (lowess : Smoother) (data : List Measurement)
    (curve_type mouse : String) (h : ∀ r ∈ data, r.mouse ≠ mouse) :
    mouse_trace lowess data curve_type mouse
      = .ok ⟨[], [], "lines+markers", mouse,
             if mouse ∈ DASHED_MICE then "dash" else "solid"⟩
    ∧ ∀ sel, ∃ fig, update_tumour_graph lowess data sel "raw" = .ok fig := by
  have hfil : data.filter (fun r => decide (r.mouse = mouse)) = [] := by
    rw [List.filter_eq_nil_iff]
    intro a ha
    simp [h a ha]
  constructor
  · have hlen :
        ¬ ((sort_values (data.filter (fun r => decide (r.mouse = mouse)))).length > 2) := by
      rw [sort_values_length, hfil]
      simp
    rw [mouse_trace_else lowess data curve_type mouse (fun hc => hlen hc.2), hfil]
    rfl
  · exact fun sel => update_raw_ok lowess data sel

/-- Witness for C1 (amended): the unknown mouse `"B"` over `df0` yields the
empty raw trace. -/
theorem unknown_mouse_not_rejected_witness :
    mouse_trace lowess_id df0 "raw" "B"
      = .ok ⟨[], [], "lines+markers", "B",
             if "B" ∈ DASHED_MICE then "dash" else "solid"⟩ :=
  (unknown_mouse_not_rejected lowess_id df0 "raw" "B" (by decide)).1

/-- C2 (counterexample): with a smoother that fails on mouse `"A"` of `df2`
(four points), the whole callback aborts with an error — no figure at all is
produced — even though mouse `"B"` on its own would have yielded a trace. The
code has no per-mouse error isolation. -/
theorem smoothing_failure_global_abort_cex :
    update_tumour_graph lowess_fail4 df2 (.ofList ["A", "B"]) "smooth" = .error ()
    ∧ mouse_trace lowess_fail4 df2 "smooth" "B"
      = .ok ⟨[0], [5], "lines+markers", "B", "solid"⟩ :=
  ⟨by decide, by decide⟩

/-- C2 (amended): a numerical failure of the smoothing routine for any single
selected mouse aborts the entire render: the exception propagates out of the
callback and no Chart Description is produced, so no sibling mouse is drawn
either. -/
theorem smoothing_failure_aborts_render (lowess : Smoother) (data : List Measurement)
    (sel : List String) (curve_type mouse : String) (hmem : mouse ∈ sel)
    (herr : mouse_trace lowess data curve_type mouse = .error ()) :
    update_tumour_graph lowess data (.ofList sel) curve_type = .error () := by
  have hsel : falsy (Selection.ofList sel) = false := by
    cases sel with
    | nil => cases hmem
    | cons a tl => rfl
  have hff : ¬ (falsy (Selection.ofList sel) = true) := by
    rw [hsel]; exact Bool.false_ne_true
  have hadd := add_traces_error_of_mem lowess data curve_type mouse sel hmem herr
  unfold update_tumour_graph
  rw [if_neg hff]
  simp only [asList]
  rw [hadd]

/-- Witness for C2 (amended): the failing smoother on mouse `"A"` makes the
whole two-mouse render error out. -/
theorem smoothing_failure_aborts_render_witness :
    update_tumour_graph lowess_fail4 df2 (.ofList ["A", "B"]) "smooth" = .error () :=
  smoothing_failure_aborts_render lowess_fail4 df2 ["A", "B"] "smooth" "A"
    (by decide) (by decide)

/-- C3 (counterexample): mouse `"A"` of `df1` has 3 (> 2) measurements but a
duplicated time, and `lowess` (modelled shape-faithfully by the identity
smoother, which satisfies `LowessShape`) returns one row per observation: the
smoothed trace has 3 points whose x values `[1, 1, 2]` are NOT distinct, so
the claimed distinctness fails. -/
theorem smoothed_x_not_distinct_cex :
    LowessShape lowess_id
    ∧ 2 < (df1.filter (fun r => decide (r.mouse = "A"))).length
    ∧ mouse_trace lowess_id df1 "smooth" "A"
      = .ok ⟨[1, 1, 2], [10, 20, 30], "lines", "A (smoothed)", "solid"⟩
    ∧ ¬ ([1, 1, 2] : List ℚ).Nodup := by
  refine ⟨?_, by decide, by decide, by decide⟩
  intro frac pts out hout
  injection hout with hout
  subst hout
  rfl

/-- C3 (amended): for a mouse with n > 2 measurements in smoothed mode, under
the documented `lowess` output shape, the trace has exactly n points whose x
values are, in order, the sorted input times (duplicates preserved) and hence
non-decreasing; they are distinct and strictly ascending whenever the input
times are distinct. -/
theorem smoothed_series_x_matches_sorted_times (lowess : Smoother)
    (data : List Measurement) (mouse : String) (tr : Trace)
    (hshape : LowessShape lowess)
    (hn : 2 < (data.filter (fun r => decide (r.mouse = mouse))).length)
    (htr : mouse_trace lowess data "smooth" mouse = .ok tr) :
    tr.x = (sort_values (data.filter (fun r => decide (r.mouse = mouse)))).map (·.time)
    ∧ tr.x.length = (data.filter (fun r => decide (r.mouse = mouse))).length
    ∧ tr.x.Pairwise (· ≤ ·)
    ∧ (((data.filter (fun r => decide (r.mouse = mouse))).map (·.time)).Nodup →
        tr.x.Pairwise (· < ·)) := by
  have hlen : (sort_values (data.filter (fun r => decide (r.mouse = mouse)))).length > 2 := by
    rw [sort_values_length]; exact hn
  simp only [mouse_trace, eq_self_iff_true, true_and] at htr
  rw [if_pos hlen] at htr
  cases hsm : lowess (35 / 100)
      ((sort_values (data.filter (fun r => decide (r.mouse = mouse)))).map
        (fun r => (r.time, r.volume))) with
  | error e => rw [hsm] at htr; simp at htr
  | ok sm =>
    rw [hsm] at htr
    injection htr with htr
    have hx : tr.x
        = (sort_values (data.filter (fun r => decide (r.mouse = mouse)))).map (·.time) := by
      rw [← htr]
      show sm.map Prod.fst = _
      rw [hshape _ _ _ hsm, List.map_map]
      rfl
    have hsorted : tr.x.Pairwise (· ≤ ·) := by
      rw [hx]
      exact List.pairwise_map.mpr (sort_values_sorted _)
    refine ⟨hx, ?_, hsorted, ?_⟩
    · rw [hx, List.length_map, sort_values_length]
    · intro hnd
      have hperm :
          ((sort_values (data.filter (fun r => decide (r.mouse = mouse)))).map (·.time)).Perm
            ((data.filter (fun r => decide (r.mouse = mouse))).map (·.time)) :=
        (sort_values_perm _).map _
      have hnd' : tr.x.Nodup := by
        rw [hx]
        exact hnd.perm hperm.symm
      exact (hsorted.and hnd').imp (fun hab => lt_of_le_of_ne hab.1 hab.2)

/-- Witness for C3 (amended): mouse `"A"` of `df3` (3 distinct times) under
the identity smoother gets x values `[0, 1, 2]`: the sorted input times, of
full length, ascending, and strict since the times are distinct. -/
theorem smoothed_series_x_matches_sorted_times_witness :
    (⟨[0, 1, 2], [1, 2, 3], "lines", "A (smoothed)", "solid"⟩ : Trace).x
      = (sort_values (df3.filter (fun r => decide (r.mouse = "A")))).map (·.time)
    ∧ (⟨[0, 1, 2], [1, 2, 3], "lines", "A (smoothed)", "solid"⟩ : Trace).x.length
      = (df3.filter (fun r => decide (r.mouse = "A"))).length
    ∧ (⟨[0, 1, 2], [1, 2, 3], "lines", "A (smoothed)", "solid"⟩ : Trace).x.Pairwise (· ≤ ·)
    ∧ (((df3.filter (fun r => decide (r.mouse = "A"))).map (·.time)).Nodup →
        (⟨[0, 1, 2], [1, 2, 3], "lines", "A (smoothed)", "solid"⟩ : Trace).x.Pairwise
          (· < ·)) :=
  smoothed_series_x_matches_sorted_times lowess_id df3 "A"
    ⟨[0, 1, 2], [1, 2, 3], "lines", "A (smoothed)", "solid"⟩
    (fun frac pts out hout => by injection hout with hout; subst hout; rfl)
    (by decide) (by decide)

end TumourApp
